import Mathlib

/-!
Verification of the offer-extraction and pricing code in `load_offers.py`.

The program scrapes subscription offers from a marketing page, extracts one
`Offer` record per markup fragment (`parse_page`), and derives a first-year
cost per offer (`Offer.year_cost`), interpreting the free-text `campaign`
clause with three regular expressions:

* months:  `\b(\d\d?|tre) ?mån`  (IGNORECASE)
* reduced: `(\d+) ?kr`           (IGNORECASE)
* speed:   `(\d+)[_/](\d+)` and the bare `\d+` fallback

The scanners below embed these regexes as executable functions on `List Char`,
with Python's leftmost-match and greedy/backtracking behaviour reproduced
directly (for each pattern the possible backtracks are finite and are spelled
out at the match site). Python `float` arithmetic on the half-price path is
exact for the magnitudes involved, so costs are modelled in `ℚ`.
-/

/-- Lower-casing as Python's `re.IGNORECASE` applies it to the characters used
by the patterns: ASCII letters plus the Swedish `Å`. -/
def lowerSw (c : Char) : Char :=
  if c = 'Å' then 'å' else if c = 'Ä' then 'ä' else if c = 'Ö' then 'ö' else c.toLower

/-- Python `\w` (Unicode word character), restricted to the alphabet of the
Swedish source text: ASCII alphanumerics, underscore, and Swedish letters. -/
def isWordChar (c : Char) : Bool :=
  c.isAlphanum || c = '_' || c = 'å' || c = 'ä' || c = 'ö' || c = 'Å' || c = 'Ä' || c = 'Ö'

/-- Python `str.strip()` on a character list (whitespace from both ends). -/
def stripL (l : List Char) : List Char :=
  ((l.dropWhile Char.isWhitespace).reverse.dropWhile Char.isWhitespace).reverse

/-- Python `str.strip()`. -/
def pyStrip (s : String) : String := String.mk (stripL s.data)

/-- Python `str.split(sep)` for a single-character separator: split at every
occurrence, keeping empty parts. -/
def splitIf (p : Char → Bool) : List Char → List (List Char)
  | [] => [[]]
  | c :: rest =>
    if p c then [] :: splitIf p rest
    else
      match splitIf p rest with
      | [] => [[c]]
      | t :: ts => (c :: t) :: ts

/-- Python `str.split(sep)` with `sep` a single character. -/
def splitOnChar (sep : Char) (l : List Char) : List (List Char) :=
  splitIf (fun c => c == sep) l

/-- Python `str.split()` with no argument: split on whitespace runs, dropping
empty tokens. -/
def pySplitWs (l : List Char) : List (List Char) :=
  (splitIf Char.isWhitespace l).filter (fun t => !t.isEmpty)

/-- Numeric value of a digit string (the value `int` returns on an all-digit
literal). -/
def digitsVal (l : List Char) : Int :=
  l.foldl (fun a c => a * 10 + ((c.toNat : Int) - 48)) 0

/-- Python `int(s)` on a string: strip whitespace, optional sign, then a
nonempty run of decimal digits; anything else raises `ValueError`, modelled
as `none`. (Underscore digit grouping, which never occurs in this scraper's
inputs, is not modelled.) -/
def pyInt? (s : String) : Option Int :=
  match stripL s.data with
  | '-' :: ds => if ds ≠ [] ∧ ds.all Char.isDigit then some (-(digitsVal ds)) else none
  | '+' :: ds => if ds ≠ [] ∧ ds.all Char.isDigit then some (digitsVal ds) else none
  | ds => if ds ≠ [] ∧ ds.all Char.isDigit then some (digitsVal ds) else none

/-! ## The months regex `\b(\d\d?|tre) ?mån` (IGNORECASE) -/

/-- Literal `mån` (case-insensitive) at the head of the list. -/
def monTail (l : List Char) : Bool :=
  match l with
  | m :: a :: n :: _ => lowerSw m == 'm' && lowerSw a == 'å' && lowerSw n == 'n'
  | _ => false

/-- ` ?mån` at the head of the list; the optional space is greedy, so the
engine first consumes a space and retries without it on failure. -/
def optSpMon (l : List Char) : Bool :=
  match l with
  | ' ' :: rest => monTail rest || monTail (' ' :: rest)
  | _ => monTail l

/-- The alternative `\d\d?` followed by ` ?mån`: two digits are preferred,
backtracking to one digit. Returns the captured group. -/
def tryDigits (l : List Char) : Option (List Char) :=
  match l with
  | d1 :: d2 :: rest =>
    if d1.isDigit && d2.isDigit && optSpMon rest then some [d1, d2]
    else if d1.isDigit && optSpMon (d2 :: rest) then some [d1]
    else none
  | _ => none

/-- The alternative `tre` (case-insensitive) followed by ` ?mån`. The captured
group keeps the original casing, exactly as `match.group(1)` does. -/
def tryTre (l : List Char) : Option (List Char) :=
  match l with
  | t :: r :: e :: rest =>
    if lowerSw t == 't' && lowerSw r == 'r' && lowerSw e == 'e' && optSpMon rest
    then some [t, r, e] else none
  | _ => none

/-- `(\d\d?|tre) ?mån` at the head of the list, alternatives in pattern order. -/
def monthsGroupAt (l : List Char) : Option (List Char) :=
  match tryDigits l with
  | some g => some g
  | none => tryTre l

/-- The full pattern at one position: `\b` holds iff the word-ness of the
previous character (`pw`) differs from that of the current one. -/
def monthsMatchAt (pw : Bool) (l : List Char) : Option (List Char) :=
  match l with
  | [] => none
  | c :: _ => if pw == isWordChar c then none else monthsGroupAt l

/-- `re.search`: leftmost match wins; `pw` is the word-ness of the character
before the current position (`false` at the start of the string). -/
def monthsFind (pw : Bool) : List Char → Option (List Char)
  | [] => none
  | c :: rest =>
    match monthsMatchAt pw (c :: rest) with
    | some g => some g
    | none => monthsFind (isWordChar c) rest

/-! ## The reduced-price regex `(\d+) ?kr` (IGNORECASE) -/

/-- Literal `kr` (case-insensitive) at the head of the list. -/
def krAt (l : List Char) : Bool :=
  match l with
  | k :: r :: _ => lowerSw k == 'k' && lowerSw r == 'r'
  | _ => false

/-- ` ?kr` at the head of the list (greedy optional space, as in `optSpMon`). -/
def optSpKr (l : List Char) : Bool :=
  match l with
  | ' ' :: rest => krAt rest || krAt (' ' :: rest)
  | _ => krAt l

/-- `(\d+) ?kr` at one position. Shortening the greedy `\d+` run leaves a
digit in front of ` ?kr`, which can never match, so only the maximal run
needs to be tried. -/
def redAt (l : List Char) : Option (List Char) :=
  match l with
  | c :: _ =>
    if c.isDigit then
      if optSpKr (l.dropWhile Char.isDigit) then some (l.takeWhile Char.isDigit) else none
    else none
  | [] => none

/-- `re.search` for the reduced-price pattern (no `\b`, so no word-ness state). -/
def reducedFind : List Char → Option (List Char)
  | [] => none
  | c :: rest =>
    match redAt (c :: rest) with
    | some g => some g
    | none => reducedFind rest

/-! ## The speed regex `(\d+)[_/](\d+)` and the bare `\d+` fallback -/

/-- `(\d+)[_/](\d+)` at one position; as in `redAt`, only the maximal first
run can be followed by the separator. -/
def speedAt (l : List Char) : Option (List Char × List Char) :=
  match l with
  | c :: _ =>
    if c.isDigit then
      match l.dropWhile Char.isDigit with
      | s :: rest2 =>
        if s == '_' || s == '/' then
          match rest2.takeWhile Char.isDigit with
          | [] => none
          | d :: ds => some (l.takeWhile Char.isDigit, d :: ds)
        else none
      | [] => none
    else none
  | [] => none

/-- `re.search` for the speed pattern. -/
def speedFind : List Char → Option (List Char × List Char)
  | [] => none
  | c :: rest =>
    match speedAt (c :: rest) with
    | some g => some g
    | none => speedFind rest

/-- `re.search(r"\d+", ...)`: the first maximal digit run. -/
def firstIntRun : List Char → Option (List Char)
  | [] => none
  | c :: rest => if c.isDigit then some ((c :: rest).takeWhile Char.isDigit) else firstIntRun rest

/-- Python's `in` for strings: substring containment. -/
def containsSub (pat : List Char) : List Char → Bool
  | [] => pat.isEmpty
  | c :: rest => pat.isPrefixOf (c :: rest) || containsSub pat rest

/-! ## Data model -/

/-- Spec error taxonomy (§7): `fieldExtraction` models the Python
`IndexError`/`ValueError`/`AttributeError` raised when a structural element or
positional token is missing (the spec's `FieldExtractionError`);
`malformedField` models the `ValueError` raised by `int()` inside the shared
`IntProp` descriptor (the spec's `MalformedFieldError`). That exception
carries only the offending literal — the descriptor is a single class
attribute shared by all four integer fields and has no way to know which
field it backs, so no field name appears in the error. -/
inductive ExtractError where
  | fieldExtraction (context : String)
  | malformedField (raw : String)
deriving DecidableEq, Repr

/-- One parsed subscription offer (`class Offer`). Python initialises the
plain fields to `None` and the `IntProp` fields to unset; here every field is
total and the extractor fills them all before an offer is returned. -/
structure Offer where
  name : String
  banner : String
  isp : String
  campaign : Option String
  bind_time : String
  leave_time : String
  list_price : Int
  speed_up : Int
  speed_down : Int
  start_cost : Int
deriving DecidableEq, Repr

/-- The parse-failure marker prefix from `year_cost`'s fallback branch. -/
def failMarker : String := "## Campaign parse failed ## "

/-- `IntProp.__set__`: `int(value)`, with failure surfacing as the
`MalformedFieldError` carrying the raw text. -/
def intProp_set (raw : String) : Except ExtractError Int :=
  match pyInt? raw with
  | some n => Except.ok n
  | none => Except.error (ExtractError.malformedField raw)

/-- Assignment to `Offer.list_price` through the `IntProp` descriptor. -/
def Offer.set_list_price (o : Offer) (raw : String) : Except ExtractError Offer :=
  (intProp_set raw).map fun n => { o with list_price := n }

/-- Assignment to `Offer.speed_up` through the `IntProp` descriptor. -/
def Offer.set_speed_up (o : Offer) (raw : String) : Except ExtractError Offer :=
  (intProp_set raw).map fun n => { o with speed_up := n }

/-- Assignment to `Offer.speed_down` through the `IntProp` descriptor. -/
def Offer.set_speed_down (o : Offer) (raw : String) : Except ExtractError Offer :=
  (intProp_set raw).map fun n => { o with speed_down := n }

/-- Assignment to `Offer.start_cost` through the `IntProp` descriptor. -/
def Offer.set_start_cost (o : Offer) (raw : String) : Except ExtractError Offer :=
  (intProp_set raw).map fun n => { o with start_cost := n }

/-- `months.group(1)` post-processing in `year_cost`: the literal `tre` maps
to 3, then `int(months)`. The regex matched `tre` case-insensitively, but the
`==` comparison is case-sensitive, so any other casing falls through to
`int()`, whose `ValueError` is not caught (the `except` clause names
`TypeError`); that is the `none` case. -/
def resolveMonths (g : List Char) : Option Int :=
  if g = "tre".data then some 3 else pyInt? (String.mk g)

/-- Lines 73-78 of `year_cost`: scan the campaign text for an explicit
reduced price; a non-zero hit gives `m*r + lp*(12-m) + sc`, otherwise the
half-price heuristic `lp*(m*0.5 + 12 - m) + sc`. The offer is untouched. -/
def campaignCost (o : Offer) (c : String) (m : Int) : ℚ × Offer :=
  match reducedFind c.data with
  | some run =>
    if digitsVal run ≠ 0 then
      ((m : ℚ) * (digitsVal run : ℚ) + (o.list_price : ℚ) * ((12 : ℚ) - (m : ℚ)) + (o.start_cost : ℚ), o)
    else ((o.list_price : ℚ) * ((m : ℚ) * (1 / 2) + 12 - (m : ℚ)) + (o.start_cost : ℚ), o)
  | none => ((o.list_price : ℚ) * ((m : ℚ) * (1 / 2) + 12 - (m : ℚ)) + (o.start_cost : ℚ), o)

/-- The `year_cost` property. Python's `if not self.campaign` is true both
for `None` (absent) and for the empty string, hence the two base-price
branches. The result pairs the returned cost with the offer state after the
call, since the unresolved-campaign branch mutates `self.campaign` in place;
`none` models an uncaught exception (`ValueError` from `int()`). -/
def Offer.year_cost (o : Offer) : Option (ℚ × Offer) :=
  match o.campaign with
  | none => some ((o.start_cost : ℚ) + (o.list_price : ℚ) * 12, o)
  | some c =>
    if c = "" then some ((o.start_cost : ℚ) + (o.list_price : ℚ) * 12, o)
    else
      match monthsFind false c.data with
      | some g =>
        match resolveMonths g with
        | some m => some (campaignCost o c m)
        | none => none
      | none =>
        if containsSub ("ett halvår".data) c.data then some (campaignCost o c 6)
        else some ((o.start_cost : ℚ) + (o.list_price : ℚ) * 12,
                   { o with campaign := some (failMarker ++ c) })

/-! ## The field extractor (`parse_page`) -/

/-- One offer fragment (`article.serviceOffer` subtree), abstracted to the
texts and attributes the extractor reads. The sub-elements themselves are
assumed present (a missing selector would be an `IndexError` on `[0]`,
upstream of everything modelled here). -/
structure Fragment where
  banner_text : String
  name_text : String
  isp_href : String
  price_text : String
  has_campaign_class : Bool
  campaign_text : String
  conditions_text : String
deriving DecidableEq, Repr

/-- Lines 99-100: `speed_down = group(1)`, `speed_up = group(2)`, through the
integer-coercing descriptor. Returns `(speed_down, speed_up)`. -/
def speedPair (d u : List Char) : Except ExtractError (Int × Int) :=
  match intProp_set (String.mk d) with
  | Except.error e => Except.error e
  | Except.ok sd =>
    match intProp_set (String.mk u) with
    | Except.error e => Except.error e
    | Except.ok su => Except.ok (sd, su)

/-- Lines 97-104: the speed pair from `name`, else from `banner`, else the
first bare integer in `banner` for both directions. With no integer at all,
Python dies with `AttributeError` on `None.group(0)`; that structural
failure is folded into the `fieldExtraction` taxonomy. -/
def speedResolve (nm bn : String) : Except ExtractError (Int × Int) :=
  match speedFind nm.data with
  | some (d, u) => speedPair d u
  | none =>
    match speedFind bn.data with
    | some (d, u) => speedPair d u
    | none =>
      match firstIntRun bn.data with
      | some r =>
        match intProp_set (String.mk r) with
        | Except.error e => Except.error e
        | Except.ok v => Except.ok (v, v)
      | none => Except.error (ExtractError.fieldExtraction ("speed"))

/-- Line 105: `list_price` is the first whitespace token of the price text,
coerced by the descriptor. `[0]` on an empty token list is an `IndexError`. -/
def listPriceVal (t : String) : Except ExtractError Int :=
  match (pySplitWs t.data).get? 0 with
  | none => Except.error (ExtractError.fieldExtraction ("endUserPrice"))
  | some tok => intProp_set (String.mk tok)

/-- `t.split("\n", maxsplit=1)[1]`: the text after the first newline, or the
`IndexError` case (`none`) when there is none. -/
def splitFirstNl (t : String) : Option String :=
  match t.data.dropWhile (fun c => c != '\n') with
  | [] => none
  | _ :: rest => some (String.mk rest)

/-- Lines 106-108: for a campaign-classified fragment, the campaign text with
its first line (a label) discarded and the remainder stripped. -/
def campaignExtract (f : Fragment) : Except ExtractError (Option String) :=
  if f.has_campaign_class then
    match splitFirstNl (pyStrip f.campaign_text) with
    | some rest => Except.ok (some (pyStrip rest))
    | none => Except.error (ExtractError.fieldExtraction ("campaignDetailsText"))
  else Except.ok none

/-- Lines 92-108 of `parse_page`: everything before the conditions block.
`bind_time`, `leave_time` and `start_cost` are still at their pre-assignment
placeholders (Python `None` / unset descriptor); the conditions step
overwrites all three before an offer is emitted. -/
def preConditions (f : Fragment) : Except ExtractError Offer :=
  match (splitOnChar '/' f.isp_href.data).get? 3 with
  | none => Except.error (ExtractError.fieldExtraction ("isp-link href"))
  | some ispSeg =>
    match speedResolve f.name_text (pyStrip f.banner_text) with
    | Except.error e => Except.error e
    | Except.ok sdsu =>
      match listPriceVal f.price_text with
      | Except.error e => Except.error e
      | Except.ok lp =>
        match campaignExtract f with
        | Except.error e => Except.error e
        | Except.ok camp =>
          Except.ok { name := f.name_text, banner := pyStrip f.banner_text,
                      isp := String.mk ispSeg, campaign := camp,
                      bind_time := "", leave_time := "",
                      list_price := lp, speed_up := sdsu.2, speed_down := sdsu.1,
                      start_cost := 0 }

/-- Lines 110-114: the purchase-information block must strip-and-split into
exactly three lines (`(s, b, l) = ...` unpacking; any other count is a
`ValueError`, the spec's `FieldExtractionError`); then `start_cost` is the
second whitespace token of line 1 (stripped, coerced), and `bind_time` /
`leave_time` are the text after the first colon of lines 2 / 3, stripped. -/
def conditionsStep (f : Fragment) (o : Offer) : Except ExtractError Offer :=
  match splitOnChar '\n' (stripL f.conditions_text.data) with
  | [s, b, l] =>
    match (pySplitWs s).get? 1 with
    | none => Except.error (ExtractError.fieldExtraction ("serviceOfferPurchaseInformation"))
    | some tok =>
      match intProp_set (pyStrip (String.mk tok)) with
      | Except.error e => Except.error e
      | Except.ok sc =>
        match (splitOnChar ':' b).get? 1 with
        | none => Except.error (ExtractError.fieldExtraction ("serviceOfferPurchaseInformation"))
        | some bt =>
          match (splitOnChar ':' l).get? 1 with
          | none => Except.error (ExtractError.fieldExtraction ("serviceOfferPurchaseInformation"))
          | some lt =>
            Except.ok { o with start_cost := sc,
                               bind_time := pyStrip (String.mk bt),
                               leave_time := pyStrip (String.mk lt) }
  | _ => Except.error (ExtractError.fieldExtraction ("serviceOfferPurchaseInformation"))

/-- The whole per-fragment field extractor (the body of `parse_page`'s loop). -/
def extractOffer (f : Fragment) : Except ExtractError Offer :=
  match preConditions f with
  | Except.error e => Except.error e
  | Except.ok o => conditionsStep f o

/-- `parse_page` over the document's fragments, in document order; the first
failing fragment aborts the whole extraction with its error. -/
def parse_page (frags : List Fragment) : Except ExtractError (List Offer) :=
  match frags with
  | [] => Except.ok []
  | f :: rest =>
    match extractOffer f with
    | Except.error e => Except.error e
    | Except.ok o =>
      match parse_page rest with
      | Except.error e => Except.error e
      | Except.ok os => Except.ok (o :: os)

/-- `n` successive evaluations of the `year_cost` property, threading the
offer state (the campaign field can be rewritten in place). -/
def stepN : Nat → Offer → Option Offer
  | 0, o => some o
  | n + 1, o =>
    match Offer.year_cost o with
    | none => none
    | some p => stepN n p.2

/-- `n` copies of the parse-failure marker. -/
def markerRep : Nat → String
  | 0 => ""
  | n + 1 => failMarker ++ markerRep n

/-! ## Basic lemmas about the character-level helpers -/

theorem digit_not_ws (c : Char) (h : c.isDigit = true) : c.isWhitespace = false := by
  by_contra hne
  have hw : c.isWhitespace = true := by
    cases hx : c.isWhitespace
    · exact absurd hx hne
    · rfl
  have hd : ((c = ' ' ∨ c = '\t') ∨ c = '\x0d') ∨ c = '\n' := by
    simpa [Char.isWhitespace, Bool.or_eq_true, beq_iff_eq] using hw
  rcases hd with ((h1 | h1) | h1) | h1 <;> subst h1 <;> exact absurd h (by decide)

theorem all_digit_strip (g : List Char) (h2 : g.all Char.isDigit) :
    (g.dropWhile Char.isWhitespace) = g := by
  cases g with
  | nil => rfl
  | cons c t =>
    have hc : c.isDigit = true := by
      simp [List.all_cons] at h2
      exact h2.1
    simp [List.dropWhile_cons, digit_not_ws c hc]

theorem stripL_digits (g : List Char) (h2 : g.all Char.isDigit) : stripL g = g := by
  unfold stripL
  rw [all_digit_strip g h2, all_digit_strip g.reverse (by simpa using h2), List.reverse_reverse]

/-- `int()` succeeds on every nonempty all-digit string (such as a regex
digit run) and returns its decimal value. -/
theorem pyInt_digits (g : List Char) (h1 : g ≠ []) (h2 : g.all Char.isDigit) :
    pyInt? (String.mk g) = some (digitsVal g) := by
  unfold pyInt?
  have hs : stripL (String.mk g).data = g := stripL_digits g h2
  rw [hs]
  cases g with
  | nil => exact absurd rfl h1
  | cons c t =>
    have hc : c.isDigit = true := by
      simp [List.all_cons] at h2
      exact h2.1
    have hcm : c ≠ '-' := by
      intro he
      rw [he] at hc
      exact absurd hc (by decide)
    have hcp : c ≠ '+' := by
      intro he
      rw [he] at hc
      exact absurd hc (by decide)
    split
    · rename_i ds heq
      exact absurd (List.head_eq_of_cons_eq heq.symm) (Ne.symm hcm)
    · rename_i ds heq
      exact absurd (List.head_eq_of_cons_eq heq.symm) (Ne.symm hcp)
    · rw [if_pos ⟨h1, h2⟩]

/-! ## Lemmas about the parse-failure marker

No position inside the marker text can start a months match (the marker has
no digit and no `t`), nor an occurrence of the half-year phrase, so
prefixing a campaign with the marker changes neither scan. Both facts are
pure computations over the 28 marker characters, so `rfl` settles them even
with the tail left symbolic. -/

theorem monthsFind_marker (l : List Char) :
    monthsFind false (failMarker.data ++ l) = monthsFind false l := rfl

theorem containsSub_marker (l : List Char) :
    containsSub ("ett halvår".data) (failMarker.data ++ l) = containsSub ("ett halvår".data) l := rfl

theorem data_append (a b : String) : (a ++ b).data = a.data ++ b.data := rfl

theorem str_append_assoc (a b c : String) : (a ++ b) ++ c = a ++ (b ++ c) :=
  congrArg String.mk (List.append_assoc a.data b.data c.data)

theorem str_append_empty (a : String) : a ++ "" = a :=
  congrArg String.mk (List.append_nil a.data)

theorem str_empty_append (a : String) : "" ++ a = a := rfl

theorem marker_append_ne_empty (c : String) : failMarker ++ c ≠ "" := by
  intro h
  have h2 : (failMarker ++ c).data = [] := by rw [h]
  rw [data_append] at h2
  rcases List.append_eq_nil.mp h2 with ⟨hm, _⟩
  exact absurd hm (by decide)

/-! ## Branch lemmas for `year_cost` -/

theorem year_cost_none (o : Offer) (hc : o.campaign = none) :
    o.year_cost = some ((o.start_cost : ℚ) + (o.list_price : ℚ) * 12, o) := by
  unfold Offer.year_cost
  rw [hc]

theorem year_cost_fallback (o : Offer) (c : String)
    (hc : o.campaign = some c) (hne : c ≠ "")
    (hm : monthsFind false c.data = none)
    (hh : containsSub ("ett halvår".data) c.data = false) :
    o.year_cost = some ((o.start_cost : ℚ) + (o.list_price : ℚ) * 12,
                        { o with campaign := some (failMarker ++ c) }) := by
  unfold Offer.year_cost
  rw [hc]
  simp only [hne, if_false, hm, hh, Bool.false_eq_true, reduceIte]

theorem resolveMonths_digits (g : List Char) (h1 : g ≠ []) (h2 : g.all Char.isDigit) :
    resolveMonths g = some (digitsVal g) := by
  unfold resolveMonths
  have hne : g ≠ "tre".data := by
    intro he
    rw [he] at h2
    exact absurd h2 (by decide)
  rw [if_neg hne, pyInt_digits g h1 h2]

theorem year_cost_reduced (o : Offer) (c : String) (g run : List Char) (m : Int)
    (hc : o.campaign = some c) (hne : c ≠ "")
    (hg : monthsFind false c.data = some g)
    (hm : (g ≠ [] ∧ g.all Char.isDigit ∧ digitsVal g = m) ∨ (g = "tre".data ∧ m = 3))
    (hr : reducedFind c.data = some run)
    (hnz : digitsVal run ≠ 0) :
    o.year_cost = some ((m : ℚ) * (digitsVal run : ℚ) + ((12 : ℚ) - (m : ℚ)) * (o.list_price : ℚ) + (o.start_cost : ℚ), o) := by
  have hres : resolveMonths g = some m := by
    rcases hm with ⟨hg1, hg2, hg3⟩ | ⟨hg1, hg2⟩
    · rw [resolveMonths_digits g hg1 hg2, hg3]
    · rw [hg1, hg2]
      rfl
  unfold Offer.year_cost
  rw [hc]
  simp only [hne, if_false, hg, hres]
  unfold campaignCost
  simp only [hr]
  rw [if_pos hnz]
  congr 1
  exact Prod.ext (by ring) rfl

theorem year_cost_half (o : Offer) (c : String) (m : Int)
    (hc : o.campaign = some c) (hne : c ≠ "")
    (hm : (∃ g, monthsFind false c.data = some g ∧
            ((g ≠ [] ∧ g.all Char.isDigit ∧ digitsVal g = m) ∨ (g = "tre".data ∧ m = 3)))
        ∨ (monthsFind false c.data = none ∧ containsSub ("ett halvår".data) c.data = true ∧ m = 6))
    (hr : reducedFind c.data = none ∨ ∃ run, reducedFind c.data = some run ∧ digitsVal run = 0) :
    o.year_cost = some ((o.list_price : ℚ) * ((m : ℚ) * (1 / 2) + ((12 : ℚ) - (m : ℚ))) + (o.start_cost : ℚ), o) := by
  have hcost : campaignCost o c m =
      ((o.list_price : ℚ) * ((m : ℚ) * (1 / 2) + ((12 : ℚ) - (m : ℚ))) + (o.start_cost : ℚ), o) := by
    unfold campaignCost
    rcases hr with hr0 | ⟨run, hr1, hr2⟩
    · simp only [hr0]
      exact Prod.ext (by ring) rfl
    · simp only [hr1, hr2]
      simp only [ne_eq, not_true_eq_false, if_false]
      exact Prod.ext (by ring) rfl
  unfold Offer.year_cost
  rw [hc]
  rcases hm with ⟨g, hg, hgm⟩ | ⟨hm0, hm1, hm2⟩
  · have hres : resolveMonths g = some m := by
      rcases hgm with ⟨hg1, hg2, hg3⟩ | ⟨hg1, hg2⟩
      · rw [resolveMonths_digits g hg1 hg2, hg3]
      · rw [hg1, hg2]
        rfl
    simp only [hne, if_false, hg, hres, hcost]
  · subst hm2
    simp only [hne, if_false, hm0, hm1, if_true, hcost]

theorem campaignCost_snd (o : Offer) (c : String) (m : Int) : (campaignCost o c m).2 = o := by
  unfold campaignCost
  split
  · split
    · rfl
    · rfl
  · rfl

theorem year_cost_frame (o : Offer) (v : ℚ) (o2 : Offer) (h : o.year_cost = some (v, o2)) :
    o2.name = o.name ∧ o2.banner = o.banner ∧ o2.isp = o.isp ∧
    o2.bind_time = o.bind_time ∧ o2.leave_time = o.leave_time ∧
    o2.list_price = o.list_price ∧ o2.speed_up = o.speed_up ∧
    o2.speed_down = o.speed_down ∧ o2.start_cost = o.start_cost ∧
    (o2.campaign = o.campaign ∨
      (∃ c, o.campaign = some c ∧ monthsFind false c.data = none ∧
        containsSub ("ett halvår".data) c.data = false ∧
        o2.campaign = some (failMarker ++ c))) := by
  have ho : o2 = o ∨ (∃ c, o.campaign = some c ∧ monthsFind false c.data = none ∧
      containsSub ("ett halvår".data) c.data = false ∧
      o2 = { o with campaign := some (failMarker ++ c) }) := by
    unfold Offer.year_cost at h
    split at h
    · left
      exact (Prod.mk.injEq _ _ _ _ ▸ (Option.some.injEq _ _ ▸ h)).2.symm
    · rename_i c hcamp
      split at h
      · left
        simp only [Option.some.injEq, Prod.mk.injEq] at h
        exact h.2.symm
      · split at h
        · split at h
          · rename_i g hg m hm
            left
            simp only [Option.some.injEq] at h
            have := congrArg Prod.snd h
            rw [campaignCost_snd] at this
            exact this.symm
          · exact absurd h (by simp)
        · split at h
          · left
            simp only [Option.some.injEq] at h
            have := congrArg Prod.snd h
            rw [campaignCost_snd] at this
            exact this.symm
          · right
            rename_i hm0 hh0
            refine ⟨c, hcamp, hm0, by simpa using hh0, ?_⟩
            simp only [Option.some.injEq, Prod.mk.injEq] at h
            exact h.2.symm
  rcases ho with rfl | ⟨c, hc, hm0, hh0, rfl⟩
  · exact ⟨rfl, rfl, rfl, rfl, rfl, rfl, rfl, rfl, rfl, Or.inl rfl⟩
  · exact ⟨rfl, rfl, rfl, rfl, rfl, rfl, rfl, rfl, rfl, Or.inr ⟨c, hc, hm0, hh0, rfl⟩⟩

/-! ## Lemmas about the extractor -/

theorem speedAt_runs (l : List Char) (d u : List Char) (h : speedAt l = some (d, u)) :
    d ≠ [] ∧ d.all Char.isDigit ∧ u ≠ [] ∧ u.all Char.isDigit := by
  unfold speedAt at h
  split at h
  · rename_i c rest
    split at h
    · rename_i hc
      split at h
      · rename_i s rest2 hdrop
        split at h
        · split at h
          · exact absurd h (by simp)
          · rename_i d0 ds htake
            simp only [Option.some.injEq, Prod.mk.injEq] at h
            rcases h with ⟨hd, hu⟩
            constructor
            · rw [← hd]
              simp [List.takeWhile_cons, hc]
            refine ⟨?_, ?_, ?_⟩
            · rw [← hd]
              exact List.all_takeWhile
            · rw [← hu]
              simp
            · rw [← hu, ← htake]
              exact List.all_takeWhile
        · exact absurd h (by simp)
      · exact absurd h (by simp)
    · exact absurd h (by simp)
  · exact absurd h (by simp)

theorem speedFind_runs (l : List Char) (d u : List Char) (h : speedFind l = some (d, u)) :
    d ≠ [] ∧ d.all Char.isDigit ∧ u ≠ [] ∧ u.all Char.isDigit := by
  induction l with
  | nil => exact absurd h (by simp [speedFind])
  | cons c rest ih =>
    unfold speedFind at h
    split at h
    · rename_i g hat
      cases h
      exact speedAt_runs _ _ _ hat
    · exact ih h

theorem firstIntRun_run (l : List Char) (r : List Char) (h : firstIntRun l = some r) :
    r ≠ [] ∧ r.all Char.isDigit := by
  induction l with
  | nil => exact absurd h (by simp [firstIntRun])
  | cons c rest ih =>
    unfold firstIntRun at h
    split at h
    · rename_i hc
      simp only [Option.some.injEq] at h
      constructor
      · rw [← h]
        simp [List.takeWhile_cons, hc]
      · rw [← h]
        exact List.all_takeWhile
    · exact ih h

theorem speedPair_ok (d u : List Char)
    (hd1 : d ≠ []) (hd2 : d.all Char.isDigit) (hu1 : u ≠ []) (hu2 : u.all Char.isDigit) :
    speedPair d u = Except.ok (digitsVal d, digitsVal u) := by
  unfold speedPair intProp_set
  rw [pyInt_digits d hd1 hd2, pyInt_digits u hu1 hu2]

/-- The speed-resolution contract of lines 97-104, phrased over the three
ordered sources (name pair, banner pair, banner bare integer). -/
theorem speedResolve_spec (nm bn : String) (sdsu : Int × Int)
    (h : speedResolve nm bn = Except.ok sdsu) :
    (∀ d u, speedFind nm.data = some (d, u) → sdsu = (digitsVal d, digitsVal u)) ∧
    (speedFind nm.data = none →
      ∀ d u, speedFind bn.data = some (d, u) → sdsu = (digitsVal d, digitsVal u)) ∧
    (speedFind nm.data = none → speedFind bn.data = none →
      ∀ r, firstIntRun bn.data = some r → sdsu = (digitsVal r, digitsVal r)) := by
  unfold speedResolve at h
  split at h
  · rename_i d u hfind
    obtain ⟨hd1, hd2, hu1, hu2⟩ := speedFind_runs _ _ _ hfind
    rw [speedPair_ok d u hd1 hd2 hu1 hu2] at h
    cases h
    refine ⟨?_, ?_, ?_⟩
    · intro d' u' hf
      rw [hfind] at hf
      cases hf
      rfl
    · intro hn
      rw [hfind] at hn
      cases hn
    · intro hn
      rw [hfind] at hn
      cases hn
  · rename_i hn1
    split at h
    · rename_i d u hfind
      obtain ⟨hd1, hd2, hu1, hu2⟩ := speedFind_runs _ _ _ hfind
      rw [speedPair_ok d u hd1 hd2 hu1 hu2] at h
      cases h
      refine ⟨?_, ?_, ?_⟩
      · intro d' u' hf
        rw [hn1] at hf
        cases hf
      · intro _ d' u' hf
        rw [hfind] at hf
        cases hf
        rfl
      · intro _ hn
        rw [hfind] at hn
        cases hn
    · rename_i hn2
      split at h
      · rename_i r hr
        obtain ⟨hr1, hr2⟩ := firstIntRun_run _ _ hr
        unfold intProp_set at h
        rw [pyInt_digits r hr1 hr2] at h
        cases h
        refine ⟨?_, ?_, ?_⟩
        · intro d' u' hf
          rw [hn1] at hf
          cases hf
        · intro _ d' u' hf
          rw [hn2] at hf
          cases hf
        · intro _ _ r' hf
          rw [hr] at hf
          cases hf
          rfl
      · exact absurd h (by simp)

theorem preConditions_fields (f : Fragment) (o6 : Offer)
    (h : preConditions f = Except.ok o6) :
    ((splitOnChar '/' f.isp_href.data).get? 3).map String.mk = some o6.isp ∧
    ∃ sdsu, speedResolve f.name_text (pyStrip f.banner_text) = Except.ok sdsu ∧
      o6.speed_down = sdsu.1 ∧ o6.speed_up = sdsu.2 := by
  unfold preConditions at h
  split at h
  · exact absurd h (by simp)
  · rename_i ispSeg hisp
    split at h
    · exact absurd h (by simp)
    · rename_i sdsu hsp
      split at h
      · exact absurd h (by simp)
      · rename_i lp hlp
        split at h
        · exact absurd h (by simp)
        · rename_i camp hcamp
          cases h
          exact ⟨by rw [hisp]; rfl, sdsu, hsp, rfl, rfl⟩

/-- The conditions step only (re)assigns `start_cost`, `bind_time` and
`leave_time`; every other field of the threaded offer is untouched. -/
theorem conditionsStep_pres (f : Fragment) (o o' : Offer)
    (h : conditionsStep f o = Except.ok o') :
    o'.isp = o.isp ∧ o'.speed_up = o.speed_up ∧ o'.speed_down = o.speed_down ∧
    o'.name = o.name ∧ o'.banner = o.banner ∧ o'.campaign = o.campaign ∧
    o'.list_price = o.list_price := by
  unfold conditionsStep at h
  split at h
  · split at h
    · exact absurd h (by simp)
    · split at h
      · exact absurd h (by simp)
      · split at h
        · exact absurd h (by simp)
        · split at h
          · exact absurd h (by simp)
          · cases h
            exact ⟨rfl, rfl, rfl, rfl, rfl, rfl, rfl⟩
  · exact absurd h (by simp)

theorem extractOffer_fields (f : Fragment) (o : Offer)
    (h : extractOffer f = Except.ok o) :
    ((splitOnChar '/' f.isp_href.data).get? 3).map String.mk = some o.isp ∧
    ∃ sdsu, speedResolve f.name_text (pyStrip f.banner_text) = Except.ok sdsu ∧
      o.speed_down = sdsu.1 ∧ o.speed_up = sdsu.2 := by
  unfold extractOffer at h
  split at h
  · exact absurd h (by simp)
  · rename_i o6 hpre
    obtain ⟨hisp, sdsu, hsp, hsd, hsu⟩ := preConditions_fields f o6 hpre
    obtain ⟨hisp', hsu', hsd', _, _, _, _⟩ := conditionsStep_pres f o6 o h
    exact ⟨by rw [hisp']; exact hisp, sdsu, hsp, by rw [hsd', hsd], by rw [hsu', hsu]⟩

theorem conditionsStep_badlines (f : Fragment) (o : Offer)
    (hlen : (splitOnChar '\n' (stripL f.conditions_text.data)).length ≠ 3) :
    conditionsStep f o =
      Except.error (ExtractError.fieldExtraction ("serviceOfferPurchaseInformation")) := by
  unfold conditionsStep
  split
  · rename_i s b l heq
    exact absurd (by rw [heq]; rfl) hlen
  · rfl

/-- A fragment whose extraction fails poisons the whole page: wherever it
sits in the document, `parse_page` never returns a collection. -/
theorem parse_page_not_ok (f : Fragment) (e : ExtractError)
    (hf : extractOffer f = Except.error e) :
    ∀ pre suf res, parse_page (pre ++ f :: suf) ≠ Except.ok res := by
  intro pre
  induction pre with
  | nil =>
    intro suf res h
    rw [List.nil_append] at h
    unfold parse_page at h
    rw [hf] at h
    cases h
  | cons p rest ih =>
    intro suf res h
    rw [List.cons_append] at h
    unfold parse_page at h
    split at h
    · cases h
    · rename_i o ho
      split at h
      · cases h
      · rename_i os hos
        exact ih suf os hos

/-! ## Lemmas for iterated `year_cost` evaluation -/

theorem markerRep_comm (n : Nat) : markerRep n ++ failMarker = failMarker ++ markerRep n := by
  induction n with
  | zero =>
    rw [show markerRep 0 = "" from rfl, str_empty_append, str_append_empty]
  | succ k ih =>
    rw [show markerRep (k + 1) = failMarker ++ markerRep k from rfl,
        str_append_assoc, ih, ← str_append_assoc]

theorem fallback_pres (c : String)
    (hm : monthsFind false c.data = none)
    (hh : containsSub ("ett halvår".data) c.data = false) :
    (failMarker ++ c ≠ "") ∧ monthsFind false (failMarker ++ c).data = none ∧
    containsSub ("ett halvår".data) (failMarker ++ c).data = false := by
  refine ⟨marker_append_ne_empty c, ?_, ?_⟩
  · rw [data_append, monthsFind_marker, hm]
  · rw [data_append, containsSub_marker, hh]

theorem markerRep_fallback (c : String) (hne : c ≠ "")
    (hm : monthsFind false c.data = none)
    (hh : containsSub ("ett halvår".data) c.data = false) (n : Nat) :
    (markerRep n ++ c ≠ "") ∧ monthsFind false (markerRep n ++ c).data = none ∧
    containsSub ("ett halvår".data) (markerRep n ++ c).data = false := by
  induction n with
  | zero => exact ⟨hne, hm, hh⟩
  | succ k ih =>
    obtain ⟨ih1, ih2, ih3⟩ := ih
    have := fallback_pres (markerRep k ++ c) ih2 ih3
    rw [← str_append_assoc] at this
    rw [show markerRep (k + 1) = failMarker ++ markerRep k from rfl, str_append_assoc]
    rw [← str_append_assoc]
    exact this

theorem stepN_fallback : ∀ (n : Nat) (o : Offer) (c : String),
    o.campaign = some c → c ≠ "" → monthsFind false c.data = none →
    containsSub ("ett halvår".data) c.data = false →
    stepN n o = some { o with campaign := some (markerRep n ++ c) } := by
  intro n
  induction n with
  | zero =>
    intro o c hc _ _ _
    simp only [stepN]
    rw [show markerRep 0 ++ c = c from rfl, ← hc]
  | succ k ih =>
    intro o c hc hne hm hh
    have hyc := year_cost_fallback o c hc hne hm hh
    simp only [stepN, hyc]
    obtain ⟨hne', hm', hh'⟩ := fallback_pres c hm hh
    have := ih { o with campaign := some (failMarker ++ c) } (failMarker ++ c) rfl hne' hm' hh'
    rw [this]
    have hstr : markerRep k ++ (failMarker ++ c) = markerRep (k + 1) ++ c := by
      rw [← str_append_assoc, markerRep_comm]
      rfl
    rw [hstr]

/-! ## Concrete offers and fragments used by witnesses and counterexamples -/

def o1 : Offer :=
  { name := "Fiber", banner := "Snabbt", isp := "bahnhof", campaign := none,
    bind_time := "12 mån", leave_time := "1 mån",
    list_price := 299, speed_up := 100, speed_down := 100, start_cost := 250 }

def oTre : Offer :=
  { name := "X", banner := "Y", isp := "telia",
    campaign := some ("TRE mån för endast 199 kr"), bind_time := "", leave_time := "",
    list_price := 100, speed_up := 10, speed_down := 10, start_cost := 50 }

def oC2 : Offer :=
  { name := "X", banner := "Y", isp := "telia",
    campaign := some ("3 mån för 199kr"), bind_time := "", leave_time := "",
    list_price := 100, speed_up := 10, speed_down := 10, start_cost := 0 }

def oHalv : Offer :=
  { name := "X", banner := "Y", isp := "telia",
    campaign := some ("Nu ett halvår till halva priset!"), bind_time := "", leave_time := "",
    list_price := 200, speed_up := 10, speed_down := 10, start_cost := 0 }

def oC4 : Offer :=
  { name := "X", banner := "Y", isp := "telia",
    campaign := some ("halva priset i sommar"), bind_time := "", leave_time := "",
    list_price := 100, speed_up := 10, speed_down := 10, start_cost := 50 }

def oC4r : Offer :=
  { oC4 with campaign := some ("## Campaign parse failed ## halva priset i sommar") }

def oCamp : Offer :=
  { name := "X", banner := "Y", isp := "telia",
    campaign := some ("gratis router"), bind_time := "", leave_time := "",
    list_price := 100, speed_up := 10, speed_down := 10, start_cost := 0 }

def fragBah : Fragment :=
  { banner_text := "Upp till 300 Mbit", name_text := "Bredband 300_100",
    isp_href := "kungsbackastadsnat/internet/privat/bahnhof/bredband300",
    price_text := "349 kr", has_campaign_class := false, campaign_text := "",
    conditions_text := "Startavgift 395 kr\nBindningstid: 0 mån\nUppsägningstid: 1 mån" }

def oBah : Offer :=
  { name := "Bredband 300_100", banner := "Upp till 300 Mbit", isp := "bahnhof",
    campaign := none, bind_time := "0 mån", leave_time := "1 mån",
    list_price := 349, speed_up := 100, speed_down := 300, start_cost := 395 }

def frag500 : Fragment :=
  { banner_text := "500 Mbit", name_text := "Fiber Bas",
    isp_href := "kungsbackastadsnat/internet/privat/telia/fiberbas",
    price_text := "449 kr", has_campaign_class := false, campaign_text := "",
    conditions_text := "Startavgift 0 kr\nBindningstid: 12 mån\nUppsägningstid: 3 mån" }

def o500 : Offer :=
  { name := "Fiber Bas", banner := "500 Mbit", isp := "telia",
    campaign := none, bind_time := "12 mån", leave_time := "3 mån",
    list_price := 449, speed_up := 500, speed_down := 500, start_cost := 0 }

def fragBad : Fragment :=
  { banner_text := "Snabb fiber", name_text := "Fiber 100_100",
    isp_href := "kungsbackastadsnat/internet/privat/telia/fiber100",
    price_text := "399 kr per månad", has_campaign_class := false, campaign_text := "",
    conditions_text := "Startavgift 0 kr\nBindningstid: 12 månader" }

def o6bad : Offer :=
  { name := "Fiber 100_100", banner := "Snabb fiber", isp := "telia",
    campaign := none, bind_time := "", leave_time := "",
    list_price := 399, speed_up := 100, speed_down := 100, start_cost := 0 }

/-! ## The claims -/

/-- Claim C1: for every offer record whose `campaign` field is absent,
`year_cost` returns `start_cost + list_price * 12` (and leaves the offer
unchanged). -/
theorem C1_no_campaign_cost (o : Offer) (h : o.campaign = none) :
    o.year_cost = some ((o.start_cost : ℚ) + (o.list_price : ℚ) * 12, o) :=
  year_cost_none o h

/-- Claim C1 witness: a concrete campaign-free offer with
`start_cost = 250` and `list_price = 299` yields `250 + 299 * 12 = 3838`. -/
theorem C1_no_campaign_cost_witness : o1.year_cost = some ((3838 : ℚ), o1) := by
  rw [C1_no_campaign_cost o1 rfl]
  refine congrArg some (Prod.ext ?_ rfl)
  norm_num [o1]

/-- Claim C2 counterexample: the claim reads the duration token
case-insensitively (`tre` mapped to 3). The scanner indeed finds the token
`TRE` in `"TRE mån för endast 199 kr"`, and the non-zero reduced price 199
is present, so the claim asserts `year_cost = 3*199 + 9*list_price +
start_cost`; but the code compares `months == "tre"` case-sensitively and
then calls `int("TRE")`, whose `ValueError` is not caught (the `except`
clause names `TypeError`), so `year_cost` raises instead of returning the
claimed value. -/
theorem C2_campaign_tre_counterexample :
    oTre.campaign = some ("TRE mån för endast 199 kr") ∧
    monthsFind false ("TRE mån för endast 199 kr".data) = some ("TRE".data) ∧
    reducedFind ("TRE mån för endast 199 kr".data) = some ("199".data) ∧
    digitsVal ("199".data) ≠ 0 ∧
    oTre.year_cost = none ∧
    oTre.year_cost ≠ some ((3 : ℚ) * 199 + ((12 : ℚ) - 3) * (oTre.list_price : ℚ) + (oTre.start_cost : ℚ), oTre) := by
  decide

/-- Claim C2 as amended: for every offer whose campaign yields a duration
group that is either a 1-2 digit number valued `m` or exactly the lowercase
word `tre` (with `m = 3`) — any other casing of `tre` aborts with an
uncaught conversion error — and that also contains an explicit non-zero
reduced price token, `year_cost` returns
`m * reduced_price + (12 - m) * list_price + start_cost`. -/
theorem C2_reduced_price_amended (o : Offer) (c : String) (g run : List Char) (m : Int)
    (hc : o.campaign = some c) (hne : c ≠ "")
    (hg : monthsFind false c.data = some g)
    (hm : (g ≠ [] ∧ g.all Char.isDigit ∧ digitsVal g = m) ∨ (g = "tre".data ∧ m = 3))
    (hr : reducedFind c.data = some run)
    (hnz : digitsVal run ≠ 0) :
    o.year_cost = some ((m : ℚ) * (digitsVal run : ℚ) + ((12 : ℚ) - (m : ℚ)) * (o.list_price : ℚ) + (o.start_cost : ℚ), o) :=
  year_cost_reduced o c g run m hc hne hg hm hr hnz

/-- Claim C2 witness: the campaign `"3 mån för 199kr"` with
`list_price = 100`, `start_cost = 0` yields `3*199 + 9*100 + 0 = 1497`. -/
theorem C2_reduced_price_amended_witness : oC2.year_cost = some ((1497 : ℚ), oC2) := by
  rw [C2_reduced_price_amended oC2 ("3 mån för 199kr") ("3".data) ("199".data) 3 rfl
        (by decide) (by decide) (Or.inl (by decide)) (by decide) (by decide)]
  refine congrArg some (Prod.ext ?_ rfl)
  rw [show digitsVal ("199".data) = (199 : Int) from by decide]
  norm_num [oC2]

/-- Claim C3: for every offer whose campaign resolves a duration `m`
(digit token or lowercase `tre`, or `m = 6` via the phrase `ett halvår`
when no token matches) but carries no reduced price token, or a zero one,
`year_cost` returns `list_price * (m * 0.5 + (12 - m)) + start_cost`. -/
theorem C3_half_price_formula (o : Offer) (c : String) (m : Int)
    (hc : o.campaign = some c) (hne : c ≠ "")
    (hm : (∃ g, monthsFind false c.data = some g ∧
            ((g ≠ [] ∧ g.all Char.isDigit ∧ digitsVal g = m) ∨ (g = "tre".data ∧ m = 3)))
        ∨ (monthsFind false c.data = none ∧ containsSub ("ett halvår".data) c.data = true ∧ m = 6))
    (hr : reducedFind c.data = none ∨ ∃ run, reducedFind c.data = some run ∧ digitsVal run = 0) :
    o.year_cost = some ((o.list_price : ℚ) * ((m : ℚ) * (1 / 2) + ((12 : ℚ) - (m : ℚ))) + (o.start_cost : ℚ), o) :=
  year_cost_half o c m hc hne hm hr

/-- Claim C3 witness: the campaign `"Nu ett halvår till halva priset!"`
(no duration token, half-year phrase, no price token) with
`list_price = 200`, `start_cost = 0` yields `200 * (6*0.5 + 6) = 1800`. -/
theorem C3_half_price_formula_witness : oHalv.year_cost = some ((1800 : ℚ), oHalv) := by
  rw [C3_half_price_formula oHalv ("Nu ett halvår till halva priset!") 6 rfl (by decide)
        (Or.inr (by decide)) (Or.inl (by decide))]
  refine congrArg some (Prod.ext ?_ rfl)
  norm_num [oHalv]

/-- Claim C4: for every offer whose non-empty campaign text matches no
duration pattern (no digit/`tre` token before `mån` and no `ett halvår`
substring), `year_cost` raises nothing: it rewrites `campaign` in place to
the parse-failure marker followed by the original text and returns
`start_cost + list_price * 12`. -/
theorem C4_unparsed_campaign_fallback (o : Offer) (c : String)
    (hc : o.campaign = some c) (hne : c ≠ "")
    (hm : monthsFind false c.data = none)
    (hh : containsSub ("ett halvår".data) c.data = false) :
    o.year_cost = some ((o.start_cost : ℚ) + (o.list_price : ℚ) * 12,
                        { o with campaign := some (failMarker ++ c) }) :=
  year_cost_fallback o c hc hne hm hh

/-- Claim C4 witness: the campaign `"halva priset i sommar"` with
`start_cost = 50`, `list_price = 100` yields `1250` and the marker-prefixed
campaign text. -/
theorem C4_unparsed_campaign_fallback_witness :
    oC4.year_cost = some ((1250 : ℚ), oC4r) := by
  rw [C4_unparsed_campaign_fallback oC4 ("halva priset i sommar") rfl (by decide) (by decide) (by decide)]
  refine congrArg some (Prod.ext ?_ ?_)
  · norm_num [oC4]
  · rfl

/-- Claim C5: for every fragment that extracts successfully, the `isp`
field is the element at zero-based index 3 of the provider link's `href`
split on `/`. -/
theorem C5_isp_fourth_segment (f : Fragment) (o : Offer)
    (h : extractOffer f = Except.ok o) :
    ((splitOnChar '/' f.isp_href.data).get? 3).map String.mk = some o.isp :=
  (extractOffer_fields f o h).1

/-- Claim C5 witness: the href
`"kungsbackastadsnat/internet/privat/bahnhof/bredband300"` gives
`isp = "bahnhof"`, its fourth path segment. -/
theorem C5_isp_fourth_segment_witness :
    ((splitOnChar '/' fragBah.isp_href.data).get? 3).map String.mk = some oBah.isp ∧
    oBah.isp = "bahnhof" :=
  ⟨C5_isp_fourth_segment fragBah oBah (by rfl), rfl⟩

/-- Claim C6: for every fragment that extracts successfully, speed comes
from the first `<digits><_ or /><digits>` match in `name` (first number to
`speed_down`, second to `speed_up`), else from the same search over the
stripped `banner`, else the first bare integer in `banner` goes to both
directions. -/
theorem C6_speed_resolution (f : Fragment) (o : Offer)
    (h : extractOffer f = Except.ok o) :
    (∀ d u, speedFind f.name_text.data = some (d, u) →
      o.speed_down = digitsVal d ∧ o.speed_up = digitsVal u) ∧
    (speedFind f.name_text.data = none →
      ∀ d u, speedFind (pyStrip f.banner_text).data = some (d, u) →
        o.speed_down = digitsVal d ∧ o.speed_up = digitsVal u) ∧
    (speedFind f.name_text.data = none → speedFind (pyStrip f.banner_text).data = none →
      ∀ r, firstIntRun (pyStrip f.banner_text).data = some r →
        o.speed_up = digitsVal r ∧ o.speed_down = digitsVal r) := by
  obtain ⟨-, sdsu, hsp, hsd, hsu⟩ := extractOffer_fields f o h
  obtain ⟨s1, s2, s3⟩ := speedResolve_spec _ _ _ hsp
  refine ⟨?_, ?_, ?_⟩
  · intro d u hf
    have he := s1 d u hf
    rw [he] at hsd hsu
    exact ⟨hsd, hsu⟩
  · intro hn d u hf
    have he := s2 hn d u hf
    rw [he] at hsd hsu
    exact ⟨hsd, hsu⟩
  · intro hn1 hn2 r hf
    have he := s3 hn1 hn2 r hf
    rw [he] at hsd hsu
    exact ⟨hsu, hsd⟩

/-- Claim C6 witness: name `"Bredband 300_100"` gives `speed_down = 300`,
`speed_up = 100`; a pairless banner `"500 Mbit"` (name `"Fiber Bas"` has no
pair) gives both directions 500. -/
theorem C6_speed_resolution_witness :
    (oBah.speed_down = digitsVal ("300".data) ∧ oBah.speed_up = digitsVal ("100".data)) ∧
    (o500.speed_up = digitsVal ("500".data) ∧ o500.speed_down = digitsVal ("500".data)) :=
  ⟨(C6_speed_resolution fragBah oBah (by rfl)).1 ("300".data) ("100".data) (by decide),
   (C6_speed_resolution frag500 o500 (by rfl)).2.2 (by decide) (by decide) ("500".data) (by decide)⟩

/-- Claim C7: an otherwise well-formed fragment whose stripped conditions
block splits into a number of lines other than three makes extraction fail
with the `FieldExtractionError` for the purchase-information element, and a
document containing it never yields a collection (no partial result). -/
theorem C7_conditions_abort (f : Fragment) (o6 : Offer)
    (hpre : preConditions f = Except.ok o6)
    (hlen : (splitOnChar '\n' (stripL f.conditions_text.data)).length ≠ 3) :
    extractOffer f =
      Except.error (ExtractError.fieldExtraction ("serviceOfferPurchaseInformation")) ∧
    ∀ pre suf res, parse_page (pre ++ f :: suf) ≠ Except.ok res := by
  have hext : extractOffer f =
      Except.error (ExtractError.fieldExtraction ("serviceOfferPurchaseInformation")) := by
    unfold extractOffer
    simp only [hpre]
    exact conditionsStep_badlines f o6 hlen
  exact ⟨hext, parse_page_not_ok f _ hext⟩

/-- Claim C7 witness: a fragment with a two-line conditions block fails
with the purchase-information extraction error, and a two-fragment document
whose second fragment it is returns no collection, not even the first
offer. -/
theorem C7_conditions_abort_witness :
    extractOffer fragBad =
      Except.error (ExtractError.fieldExtraction ("serviceOfferPurchaseInformation")) ∧
    parse_page ([fragBah, fragBad]) ≠ Except.ok ([oBah]) := by
  have H := C7_conditions_abort fragBad o6bad (by rfl) (by decide)
  exact ⟨H.1, H.2 ([fragBah]) ([]) ([oBah])⟩

/-- Claim C8: whenever `year_cost` returns, every stored field of the offer
is unchanged, except that `campaign` may have been rewritten — and then
only on the unresolved-duration fallback path, to the marker-prefixed
original text. -/
theorem C8_year_cost_frame (o : Offer) (v : ℚ) (o2 : Offer) (h : o.year_cost = some (v, o2)) :
    o2.name = o.name ∧ o2.banner = o.banner ∧ o2.isp = o.isp ∧
    o2.bind_time = o.bind_time ∧ o2.leave_time = o.leave_time ∧
    o2.list_price = o.list_price ∧ o2.speed_up = o.speed_up ∧
    o2.speed_down = o.speed_down ∧ o2.start_cost = o.start_cost ∧
    (o2.campaign = o.campaign ∨
      (∃ c, o.campaign = some c ∧ monthsFind false c.data = none ∧
        containsSub ("ett halvår".data) c.data = false ∧
        o2.campaign = some (failMarker ++ c))) :=
  year_cost_frame o v o2 h

/-- Claim C8 witness: on the fallback offer `oC4` the frame conditions hold
for the rewritten result `oC4r`. -/
theorem C8_year_cost_frame_witness :
    oC4r.name = oC4.name ∧ oC4r.start_cost = oC4.start_cost := by
  have hyc : oC4.year_cost = some ((1250 : ℚ), oC4r) := by
    rw [year_cost_fallback oC4 ("halva priset i sommar") rfl (by decide) (by decide) (by decide)]
    refine congrArg some (Prod.ext ?_ ?_)
    · norm_num [oC4]
    · rfl
  have H := C8_year_cost_frame oC4 1250 oC4r hyc
  exact ⟨H.1, H.2.2.2.2.2.2.2.2.1⟩

/-- Claim C9 counterexample: assigning the same unconvertible text to two
different integer fields produces the very same error value, so the error
cannot identify the field being assigned — the `IntProp` descriptor is
shared by all four fields and `int()`'s `ValueError` carries only the
offending literal. -/
theorem C9_coercion_counterexample :
    o1.set_list_price ("enpris") = Except.error (ExtractError.malformedField ("enpris")) ∧
    o1.set_speed_up ("enpris") = Except.error (ExtractError.malformedField ("enpris")) ∧
    o1.set_list_price ("enpris") = o1.set_speed_up ("enpris") := by
  refine ⟨?_, ?_, ?_⟩ <;> rfl

/-- Claim C9 as amended: every assignment to `list_price`, `speed_up`,
`speed_down` or `start_cost` converts the value to an integer at assignment
time, and an unconvertible value fails with the coercion error carrying the
offending raw text — but not the field name. -/
theorem C9_coercion_amended (o : Offer) (raw : String) :
    (pyInt? raw = none →
      o.set_list_price raw = Except.error (ExtractError.malformedField raw) ∧
      o.set_speed_up raw = Except.error (ExtractError.malformedField raw) ∧
      o.set_speed_down raw = Except.error (ExtractError.malformedField raw) ∧
      o.set_start_cost raw = Except.error (ExtractError.malformedField raw)) ∧
    (∀ n, pyInt? raw = some n →
      o.set_list_price raw = Except.ok { o with list_price := n } ∧
      o.set_speed_up raw = Except.ok { o with speed_up := n } ∧
      o.set_speed_down raw = Except.ok { o with speed_down := n } ∧
      o.set_start_cost raw = Except.ok { o with start_cost := n }) := by
  constructor
  · intro h
    unfold Offer.set_list_price Offer.set_speed_up Offer.set_speed_down Offer.set_start_cost intProp_set
    rw [h]
    exact ⟨rfl, rfl, rfl, rfl⟩
  · intro n h
    unfold Offer.set_list_price Offer.set_speed_up Offer.set_speed_down Offer.set_start_cost intProp_set
    rw [h]
    exact ⟨rfl, rfl, rfl, rfl⟩

/-- Claim C9 witness: `"abc"` cannot be coerced and errors with the raw
text; `"395"` is converted to the integer 395 at assignment time. -/
theorem C9_coercion_amended_witness :
    o1.set_list_price ("abc") = Except.error (ExtractError.malformedField ("abc")) ∧
    o1.set_start_cost ("395") = Except.ok { o1 with start_cost := 395 } := by
  refine ⟨((C9_coercion_amended o1 ("abc")).1 (by decide)).1, ?_⟩
  have H := (C9_coercion_amended o1 ("395")).2 395 (by decide)
  exact H.2.2.2

/-- Claim C10: the in-place campaign repair is not idempotent. For an offer
with an unparseable campaign, `n` evaluations of `year_cost` leave the
campaign carrying `n` copies of the marker prefix, and the next evaluation
still returns `start_cost + list_price * 12` while prepending one more. -/
theorem C10_marker_accumulates (o : Offer) (c : String)
    (hc : o.campaign = some c) (hne : c ≠ "")
    (hm : monthsFind false c.data = none)
    (hh : containsSub ("ett halvår".data) c.data = false) (n : Nat) :
    stepN n o = some { o with campaign := some (markerRep n ++ c) } ∧
    Offer.year_cost { o with campaign := some (markerRep n ++ c) } =
      some ((o.start_cost : ℚ) + (o.list_price : ℚ) * 12,
            { o with campaign := some (markerRep (n + 1) ++ c) }) := by
  obtain ⟨h1, h2, h3⟩ := markerRep_fallback c hne hm hh n
  refine ⟨stepN_fallback n o c hc hne hm hh, ?_⟩
  have hf := year_cost_fallback { o with campaign := some (markerRep n ++ c) }
      (markerRep n ++ c) rfl h1 h2 h3
  rw [hf]
  have hstr : failMarker ++ (markerRep n ++ c) = markerRep (n + 1) ++ c :=
    (str_append_assoc failMarker (markerRep n) c).symm
  rw [hstr]

/-- Claim C10 witness: after two evaluations on the campaign
`"gratis router"` the field carries two concatenated marker copies. -/
theorem C10_marker_accumulates_witness :
    stepN 2 oCamp = some { oCamp with campaign := some (markerRep 2 ++ ("gratis router")) } ∧
    markerRep 2 ++ ("gratis router") =
      "## Campaign parse failed ## ## Campaign parse failed ## gratis router" :=
  ⟨(C10_marker_accumulates oCamp ("gratis router") rfl (by decide) (by decide) (by decide) 2).1,
   by decide⟩
